import Mathlib

/-!
Verification of the belt-monitor frame-analysis pipeline
(`src/app/belt_analyzer.py`) against its natural-language specification.

Shallow embedding conventions:
* Python floats are modelled as `ℚ` (all widths in the pipeline arise as
  absolute differences of integer pixel columns, so the arithmetic is exact;
  float literals `1.1`, `0.3` become `11/10`, `3/10`).
* A binary mask is a height, a width, and a total pixel predicate; the code
  only ever consults pixels inside the rectangle.
* Pixel-level vision primitives that have no arithmetic content visible to
  the claims (`preprocess_frame`'s blur/threshold/morphology, the Canny/Hough
  line sub-signal of `detect_seam`, the per-pixel mean difference) are kept
  abstract: the orchestrator is parametrised over an edge-extraction function
  `edges : F → Option ℕ × Option ℕ` (standing for
  `detect_belt_edges ∘ preprocess_frame`), a line signal and a mean-difference
  function, exactly the way `analyze_video` consumes `measure_width` and
  `detect_seam` in the source.
* `None` results become `Option`; fatal errors (`raise ValueError`) become
  `Except String`.
-/

namespace BeltMonitor

/-- A binary mask: single-channel image with values in {0,255}, modelled as a
height, a width and a Boolean pixel predicate (`pix row col = true` means
foreground, i.e. value 255). -/
structure Mask where
  height : ℕ
  width : ℕ
  pix : ℕ → ℕ → Bool

/-- The analyzer configuration accepted by `BeltAnalyzer.__init__`.
The ROI is not included: cropping happens before the abstract pixel-level
functions and is folded into them. -/
structure Config where
  min_width_threshold : ℚ
  max_width_threshold : ℚ
  seam_detection_threshold : ℚ
  calibration_px_per_mm : ℚ
deriving DecidableEq

/-- The default constructor arguments of `BeltAnalyzer.__init__`. -/
def default_config : Config :=
  { min_width_threshold := 100
    max_width_threshold := 2000
    seam_detection_threshold := 3/10
    calibration_px_per_mm := 1 }

/-- Source `np.sum(binary, axis=0) / 255` at column `c`: the number of foreground
pixels in column `c`. -/
def column_projection (m : Mask) (c : ℕ) : ℕ :=
  (List.range m.height).countP (fun r => m.pix r c)

/-- Predicate `projection[c] > threshold` where `threshold = height * 0.3`. -/
def exceeds (m : Mask) (c : ℕ) : Bool :=
  decide ((column_projection m c : ℚ) > 3/10 * (m.height : ℚ))

/-- Model of `cv2.findContours` on a binary mask: it returns a non-empty contour list iff
the mask has at least one foreground pixel. -/
def has_contours (m : Mask) : Bool :=
  (List.range m.height).any (fun r => (List.range m.width).any (fun c => m.pix r c))

/-- Bounding box (top, left, bottom-exclusive, right-exclusive extents) of the
foreground — stands for `cv2.boundingRect` of the largest contour, which the
source computes and then never reads (dead computation, kept for fidelity). -/
def largest_blob_bounding_box (m : Mask) : ℕ × ℕ × ℕ × ℕ :=
  let rows := (List.range m.height).filter (fun r => (List.range m.width).any (fun c => m.pix r c))
  let cols := (List.range m.width).filter (fun c => (List.range m.height).any (fun r => m.pix r c))
  (rows.headD 0, cols.headD 0, rows.getLastD 0, cols.getLastD 0)

/-- The edge-scan loop of `detect_belt_edges`:
`for i in range(len(projection))`, setting `left_edge` at the first forward
index whose projection exceeds the threshold, `right_edge` at the first
backward index, breaking once both are set. -/
def scan_go (m : Mask) : List ℕ → Option ℕ → Option ℕ → Option ℕ × Option ℕ
  | [], l, r => (l, r)
  | i :: is, l, r =>
    let l1 := if exceeds m i && l.isNone then some i else l
    let r1 := if exceeds m (m.width - 1 - i) && r.isNone then some (m.width - 1 - i) else r
    if l1.isSome && r1.isSome then (l1, r1) else scan_go m is l1 r1

/-- The column-projection scan of `detect_belt_edges` on its own (the part
after the contour pass). -/
def scan_edges (m : Mask) : Option ℕ × Option ℕ :=
  scan_go m (List.range m.width) none none

/-- Source `BeltAnalyzer.detect_belt_edges`: returns `(None, None)` early when
`cv2.findContours` finds no contours; otherwise computes the unused
largest-contour bounding box and runs the column-projection scan. -/
def detect_belt_edges (m : Mask) : Option ℕ × Option ℕ :=
  if has_contours m then
    let _bbox := largest_blob_bounding_box m
    scan_edges m
  else (none, none)

/-- The width-validation half of `BeltAnalyzer.measure_width`: given the edge
pair, return `None` if either edge is undetected, else
`width = abs(right - left)`, rejected when outside
`[min_width_threshold, max_width_threshold]`. -/
def validate_width (cfg : Config) (left right : Option ℕ) : Option ℚ :=
  match left, right with
  | some l, some r =>
    let width : ℚ := ((((r : ℤ) - (l : ℤ)).natAbs : ℕ) : ℚ)
    if width < cfg.min_width_threshold ∨ width > cfg.max_width_threshold then none
    else some width
  | _, _ => none

/-- Source `BeltAnalyzer.measure_width` at the mask level (after preprocessing):
detect edges, then validate. -/
def measure_width (cfg : Config) (m : Mask) : Option ℚ :=
  validate_width cfg (detect_belt_edges m).1 (detect_belt_edges m).2

/-- The measurement pipeline as consumed by the orchestrator, generic in the
frame type: `edges` stands for `detect_belt_edges ∘ preprocess_frame`. -/
def measure_w {F : Type} (cfg : Config) (edges : F → Option ℕ × Option ℕ) (f : F) : Option ℚ :=
  validate_width cfg (edges f).1 (edges f).2

/-- Source `BeltAnalyzer.detect_seam`: `False` on the first sampled frame (no
previous frame); otherwise the Hough-line sub-signal (abstract `line_signal`)
ORed with the intensity-change sub-signal
`mean(absdiff) > seam_detection_threshold * 255`. -/
def detect_seam {F : Type} (cfg : Config) (line_signal : F → Bool)
    (mean_diff : F → F → ℚ) (frame : F) (prev : Option F) : Bool :=
  match prev with
  | none => false
  | some p =>
    line_signal frame || decide (mean_diff frame p > cfg.seam_detection_threshold * 255)

/-- Source dataclass `SegmentMeasurement`: one belt segment with its raw width sequence. -/
@[ext]
structure SegmentMeasurement where
  segment_id : ℕ
  frame_start : ℕ
  frame_end : ℕ
  widths : List ℚ
deriving DecidableEq

/-- Source `min(self.widths) if self.widths else 0.0`. -/
def SegmentMeasurement.min_width (s : SegmentMeasurement) : ℚ :=
  match s.widths with
  | [] => 0
  | w :: ws => ws.foldl min w

/-- Source `max(self.widths) if self.widths else 0.0`. -/
def SegmentMeasurement.max_width (s : SegmentMeasurement) : ℚ :=
  match s.widths with
  | [] => 0
  | w :: ws => ws.foldl max w

/-- Source `sum(self.widths) / len(self.widths) if self.widths else 0.0`. -/
def SegmentMeasurement.avg_width (s : SegmentMeasurement) : ℚ :=
  match s.widths with
  | [] => 0
  | _ :: _ => s.widths.sum / (s.widths.length : ℚ)

/-- Population variance: `0.0` for fewer than two samples, else
`sum((w - avg) ** 2 for w in widths) / len(widths)`. -/
def SegmentMeasurement.width_variance (s : SegmentMeasurement) : ℚ :=
  if s.widths.length < 2 then 0
  else (s.widths.map (fun w => (w - s.avg_width) ^ 2)).sum / (s.widths.length : ℚ)

/-- Rounding to 2 decimal places (round half up), used to state the spec's
"1666.67 at 2 decimals". -/
def round_2dp (q : ℚ) : ℚ := ((⌊q * 100 + 1/2⌋ : ℤ) : ℚ) / 100

/-- A `width_warning` entry of the alert list. The formatted message text —
Belt width below threshold, followed by the width to two decimals — is
represented by its numeric payload `width_value`; `frame` is absent in image
mode. -/
structure Alert where
  alert_type : String
  frame : Option ℕ
  width_value : ℚ
  severity : String
deriving DecidableEq

/-- The alert dict appended by the anomaly check. -/
def mk_alert (frame : Option ℕ) (w : ℚ) : Alert :=
  { alert_type := "width_warning", frame := frame, width_value := w, severity := "warning" }

/-- The analysis output aggregate (`created_at` wall-clock timestamp not
modelled). -/
structure AnalysisResult where
  source_file : String
  total_frames : ℕ
  fps : ℚ
  segments : List SegmentMeasurement
  alerts : List Alert
deriving DecidableEq

/-- The mutable state of `analyze_video`'s frame loop. -/
structure LoopState (F : Type) where
  segments : List SegmentMeasurement
  current : SegmentMeasurement
  alerts : List Alert
  prev_frame : Option F
  frame_count : ℕ

/-- State before the first frame is read: one open segment with id 1,
`frame_start = frame_end = 0`, empty widths. -/
def init_state (F : Type) : LoopState F :=
  { segments := []
    current := { segment_id := 1, frame_start := 0, frame_end := 0, widths := [] }
    alerts := []
    prev_frame := none
    frame_count := 0 }

/-- One iteration of the `while True` loop of `analyze_video` for a
successfully decoded frame: increment `frame_count`, skip unless
`frame_count % sample_rate == 0`, otherwise run the measurement event
(append width, update `frame_end`, emit a `width_warning` when the width is
below `min_width_threshold * 1.1`) and then the seam event (close the current
segment if non-empty, open a new one at the current frame), finally remember
the frame as `prev_frame`. -/
def process_frame {F : Type} (cfg : Config) (edges : F → Option ℕ × Option ℕ)
    (line_signal : F → Bool) (mean_diff : F → F → ℚ) (sample_rate : ℕ)
    (st : LoopState F) (frame : F) : LoopState F :=
  let fc := st.frame_count + 1
  if fc % sample_rate ≠ 0 then { st with frame_count := fc }
  else
    let st1 :=
      match measure_w cfg edges frame with
      | some w =>
        { st with
          current := { st.current with widths := st.current.widths ++ [w], frame_end := fc }
          alerts :=
            if w < cfg.min_width_threshold * (11/10) then st.alerts ++ [mk_alert (some fc) w]
            else st.alerts }
      | none => st
    let st2 :=
      if detect_seam cfg line_signal mean_diff frame st1.prev_frame then
        let segs := if st1.current.widths.isEmpty then st1.segments else st1.segments ++ [st1.current]
        { st1 with
          segments := segs
          current := { segment_id := segs.length + 1, frame_start := fc, frame_end := fc, widths := [] } }
      else st1
    { st2 with prev_frame := some frame, frame_count := fc }

/-- The frame loop of `analyze_video` plus its terminal handling: fold the
per-frame step over the decoded frames, append the final open segment if
non-empty, and (as in the source, redundantly) fall back to that single
segment when the list is still empty. Returns the segment and alert lists of
the result. -/
def analyze_video_frames {F : Type} (cfg : Config) (edges : F → Option ℕ × Option ℕ)
    (line_signal : F → Bool) (mean_diff : F → F → ℚ) (sample_rate : ℕ)
    (frames : List F) : List SegmentMeasurement × List Alert :=
  let stF := frames.foldl (process_frame cfg edges line_signal mean_diff sample_rate) (init_state F)
  let segs1 := if stF.current.widths.isEmpty then stF.segments else stF.segments ++ [stF.current]
  let segs2 :=
    if segs1.isEmpty then (if stF.current.widths.isEmpty then [] else [stF.current]) else segs1
  (segs2, stF.alerts)

/-- The frames actually processed by the `while True / cap.read()` loop:
reading stops at the first frame whose decode fails (`ret == False`). -/
def read_frames {F : Type} : List (Option F) → List F
  | [] => []
  | none :: _ => []
  | some f :: rest => f :: read_frames rest

/-- Source `BeltAnalyzer.analyze_video`: the video source is `none` when
`cap.isOpened()` is false (fatal `ValueError`), otherwise it supplies the
container metadata (total frame count, fps) and the per-read decode results. -/
def analyze_video {F : Type} (cfg : Config) (edges : F → Option ℕ × Option ℕ)
    (line_signal : F → Bool) (mean_diff : F → F → ℚ) (video_path : String)
    (src : Option (ℕ × ℚ × List (Option F))) (sample_rate : ℕ) :
    Except String AnalysisResult :=
  match src with
  | none => .error ("Cannot open video: " ++ video_path)
  | some (total_frames, fps, reads) =>
    let sa := analyze_video_frames cfg edges line_signal mean_diff sample_rate (read_frames reads)
    .ok
      { source_file := video_path
        total_frames := total_frames
        fps := fps
        segments := sa.1
        alerts := sa.2 }

/-- The successful branch of `BeltAnalyzer.analyze_image`: a single
measurement; note the Python truthiness tests `if width` and
`if width and width < ...`, which treat a present width of `0.0` like `None`. -/
def analyze_image_frame {F : Type} (cfg : Config) (edges : F → Option ℕ × Option ℕ)
    (image_path : String) (frame : F) : AnalysisResult :=
  let width := measure_w cfg edges frame
  let seg_widths :=
    match width with
    | some w => if w ≠ 0 then [w] else []
    | none => []
  let segment : SegmentMeasurement :=
    { segment_id := 1, frame_start := 0, frame_end := 0, widths := seg_widths }
  let alerts :=
    match width with
    | some w =>
      if w ≠ 0 ∧ w < cfg.min_width_threshold * (11/10) then [mk_alert none w] else []
    | none => []
  { source_file := image_path
    total_frames := 1
    fps := 0
    segments := if segment.widths.isEmpty then [] else [segment]
    alerts := alerts }

/-- Source `BeltAnalyzer.analyze_image`: `cv2.imread` returning `None` is a fatal
`ValueError`; otherwise analyze the decoded frame. -/
def analyze_image {F : Type} (cfg : Config) (edges : F → Option ℕ × Option ℕ)
    (image_path : String) (img : Option F) : Except String AnalysisResult :=
  match img with
  | none => .error ("Cannot read image: " ++ image_path)
  | some frame => .ok (analyze_image_frame cfg edges image_path frame)

/-- The valid measurements among the sampled frames, tagged with their 1-based
frame indices, starting the frame counter at `k` (the claims' "N valid
measurements in sampling order"). -/
def valid_measurements_from {F : Type} (cfg : Config) (edges : F → Option ℕ × Option ℕ)
    (sample_rate : ℕ) : ℕ → List F → List (ℕ × ℚ)
  | _, [] => []
  | k, f :: fs =>
    let i := k + 1
    let rest := valid_measurements_from cfg edges sample_rate i fs
    if i % sample_rate = 0 then
      match measure_w cfg edges f with
      | some w => (i, w) :: rest
      | none => rest
    else rest

/-- All widths recorded in a loop state, in recording order: the widths of
the already-closed segments followed by those of the open segment. -/
def all_widths {F : Type} (st : LoopState F) : List ℚ :=
  (st.segments.map SegmentMeasurement.widths).flatten ++ st.current.widths

/-! ### Properties of the edge-scan loop -/

/-- The forward half of the scan: once `left_edge` is set it never changes;
while unset it becomes the first scanned index whose projection exceeds the
threshold. -/
lemma scan_go_fst (m : Mask) : ∀ (is : List ℕ) (l r : Option ℕ),
    (scan_go m is l r).1 =
      (match l with | some a => some a | none => is.find? (exceeds m)) := by
  intro is
  induction is with
  | nil => intro l r; cases l <;> simp [scan_go]
  | cons i is ih =>
    intro l r
    by_cases h1 : exceeds m i = true <;>
      by_cases h2 : exceeds m (m.width - 1 - i) = true <;>
        cases l <;> cases r <;>
          simp [scan_go, ih, h1, h2, Bool.not_eq_true, List.find?_cons_of_pos,
            List.find?_cons_of_neg]

/-- The backward half of the scan: once `right_edge` is set it never changes;
while unset it becomes the first mirrored index (`width - 1 - i`) whose
projection exceeds the threshold. -/
lemma scan_go_snd (m : Mask) : ∀ (is : List ℕ) (l r : Option ℕ),
    (scan_go m is l r).2 =
      (match r with
       | some b => some b
       | none => (is.map (fun i => m.width - 1 - i)).find? (exceeds m)) := by
  intro is
  induction is with
  | nil => intro l r; cases r <;> simp [scan_go]
  | cons i is ih =>
    intro l r
    by_cases h1 : exceeds m i = true <;>
      by_cases h2 : exceeds m (m.width - 1 - i) = true <;>
        cases l <;> cases r <;>
          simp [scan_go, ih, h1, h2, Bool.not_eq_true, List.find?_cons_of_pos,
            List.find?_cons_of_neg]

/-- A successful `find?` over `List.range n` returns the least index
satisfying the predicate. -/
lemma find?_range_min {p : ℕ → Bool} : ∀ {n a : ℕ},
    (List.range n).find? p = some a → p a = true ∧ ∀ j, j < a → p j = false := by
  intro n
  induction n with
  | zero => intro a h; simp [List.range_zero] at h
  | succ n ih =>
    intro a h
    rw [List.range_succ, List.find?_append] at h
    cases hn : (List.range n).find? p with
    | some b =>
      rw [hn] at h
      simp only [Option.or_some] at h
      obtain rfl : b = a := by injection h
      exact ih hn
    | none =>
      rw [hn] at h
      simp only [Option.none_or] at h
      by_cases hp : p n = true
      · rw [List.find?_cons_of_pos _ hp] at h
        obtain rfl : n = a := by injection h
        refine ⟨hp, fun j hj => ?_⟩
        have := List.find?_eq_none.mp hn j (List.mem_range.mpr hj)
        simpa using this
      · rw [List.find?_cons_of_neg _ hp] at h
        simp at h

/-- C7 helper: if no column of the scanned range exceeds the threshold at any
scanned index, the scan leaves both edges as given. -/
lemma scan_go_of_no_exceed (m : Mask)
    (hex : ∀ c, c < m.width → exceeds m c = false) :
    ∀ (is : List ℕ), (∀ i ∈ is, i < m.width) → ∀ l r,
      scan_go m is l r = (l, r) := by
  intro is
  induction is with
  | nil => intro _ l r; simp [scan_go]
  | cons i is ih =>
    intro hmem l r
    have hi : i < m.width := hmem i (by simp)
    have h1 : exceeds m i = false := hex i hi
    have h2 : exceeds m (m.width - 1 - i) = false := by
      refine hex _ ?_
      omega
    have ih2 := ih (fun j hj => hmem j (by simp [hj]))
    cases l <;> cases r <;> simp [scan_go, h1, h2, ih2]

/-- If the mask has no foreground pixel at all, no in-range column projection
exceeds the threshold. -/
lemma exceeds_eq_false_of_no_contours (m : Mask) (h : has_contours m = false)
    (c : ℕ) (hc : c < m.width) : exceeds m c = false := by
  have hall : ∀ r ∈ List.range m.height, m.pix r c = false := by
    intro r hr
    have h1 : ∀ rr ∈ List.range m.height,
        ¬ ((List.range m.width).any (fun cc => m.pix rr cc)) = true := by
      simpa [has_contours, List.any_eq_false] using h
    have h2 : ∀ cc ∈ List.range m.width, ¬ (m.pix r cc) = true := by
      simpa [List.any_eq_false] using h1 r hr
    simpa using h2 c (List.mem_range.mpr hc)
  have hproj : column_projection m c = 0 := by
    rw [column_projection, List.countP_eq_zero]
    intro r hr
    simpa using hall r hr
  rw [exceeds, hproj]
  simp only [decide_eq_false_iff_not, not_lt, gt_iff_lt]
  positivity

/-! ### Claim theorems: edge locator and width validator -/

/-- Shared helper: the Edge Locator agrees with the bare column-projection
scan on every mask. -/
lemma detect_belt_edges_eq_scan_aux (m : Mask) :
    detect_belt_edges m = scan_edges m := by
  rw [detect_belt_edges]
  split
  · rfl
  · rename_i h
    have hfalse : has_contours m = false := by
      revert h; cases has_contours m <;> simp
    have h0 : scan_go m (List.range m.width) none none = (none, none) :=
      scan_go_of_no_exceed m (exceeds_eq_false_of_no_contours m hfalse)
        (List.range m.width) (fun i hi => List.mem_range.mp hi) none none
    rw [scan_edges, h0]

/-- C7: For every binary mask, the Edge Locator's returned edge pair equals
the result of the column-projection scan alone; the contour/largest-blob pass
(including the early return taken when no contours exist) never changes the
returned pair. -/
theorem detect_belt_edges_eq_scan_only (m : Mask) :
    detect_belt_edges m = scan_edges m :=
  detect_belt_edges_eq_scan_aux m

/-- C10: Whenever the Edge Locator returns both edges, the left edge column
is at most the right edge column (left is the least exceeding column, right
an exceeding column, so `left > right` is never observed). -/
theorem detect_belt_edges_ordered (m : Mask) (a b : ℕ)
    (h : detect_belt_edges m = (some a, some b)) : a ≤ b := by
  rw [detect_belt_edges_eq_scan_aux] at h
  have hfst : (scan_edges m).1 = (List.range m.width).find? (exceeds m) := by
    rw [scan_edges, scan_go_fst]
  have hsnd : (scan_edges m).2 =
      ((List.range m.width).map (fun i => m.width - 1 - i)).find? (exceeds m) := by
    rw [scan_edges, scan_go_snd]
  rw [h] at hfst hsnd
  have hmin := find?_range_min hfst.symm
  have hb : exceeds m b = true := List.find?_some hsnd.symm
  by_contra hab
  have : exceeds m b = false := hmin.2 b (by omega)
  rw [this] at hb
  exact Bool.false_ne_true hb

/-- Witness mask for C10: foreground columns 1 and 5 of a 4-row, 6-column
mask. -/
def ordered_mask : Mask := ⟨4, 6, fun _ c => c == 1 || c == 5⟩

/-- C10 witness: on `ordered_mask` both edges are detected and the theorem
yields `1 ≤ 5`. -/
theorem detect_belt_edges_ordered_witness :
    detect_belt_edges ordered_mask = (some 1, some 5) ∧ 1 ≤ 5 := by
  have he : detect_belt_edges ordered_mask = (some 1, some 5) := by
    norm_num [detect_belt_edges, has_contours, scan_edges, scan_go, exceeds, column_projection,
      ordered_mask, largest_blob_bounding_box, show List.range 6 = [0,1,2,3,4,5] from rfl,
      show List.range 4 = [0,1,2,3] from rfl]
  exact ⟨he, detect_belt_edges_ordered ordered_mask 1 5 he⟩

/-- C1: If either edge is undetected the Width Validator returns absent;
otherwise, with `w = |rightColumn - leftColumn|`, it returns `present w` for
`minWidthThreshold ≤ w ≤ maxWidthThreshold` (both boundaries accepted) and
absent for `w` strictly below the minimum or strictly above the maximum. -/
theorem validate_width_spec (cfg : Config) (left right : Option ℕ) :
    (left = none ∨ right = none → validate_width cfg left right = none) ∧
    (∀ l r, left = some l → right = some r →
      (cfg.min_width_threshold ≤ ((((r : ℤ) - (l : ℤ)).natAbs : ℕ) : ℚ) ∧
          ((((r : ℤ) - (l : ℤ)).natAbs : ℕ) : ℚ) ≤ cfg.max_width_threshold →
        validate_width cfg left right = some ((((r : ℤ) - (l : ℤ)).natAbs : ℕ) : ℚ)) ∧
      (((((r : ℤ) - (l : ℤ)).natAbs : ℕ) : ℚ) < cfg.min_width_threshold ∨
          ((((r : ℤ) - (l : ℤ)).natAbs : ℕ) : ℚ) > cfg.max_width_threshold →
        validate_width cfg left right = none)) := by
  constructor
  · rintro (rfl | rfl)
    · simp [validate_width]
    · cases left <;> simp [validate_width]
  · rintro l r rfl rfl
    constructor
    · rintro ⟨h1, h2⟩
      rw [validate_width]
      rw [if_neg]
      push_neg
      exact ⟨h1, h2⟩
    · intro h
      rw [validate_width]
      rw [if_pos h]

/-- C1 witness: with the default thresholds (min 100, max 2000) the width 100
sits exactly on the lower boundary and is accepted, width 2000 sits exactly
on the upper boundary and is accepted, width 99 is rejected, and a missing
left edge gives absent. -/
theorem validate_width_spec_witness :
    validate_width default_config (some 0) (some 100) = some 100 ∧
    validate_width default_config (some 0) (some 2000) = some 2000 ∧
    validate_width default_config (some 0) (some 99) = none ∧
    validate_width default_config none (some 5) = none := by
  refine ⟨?_, ?_, ?_, ?_⟩
  · have h := ((validate_width_spec default_config (some 0) (some 100)).2 0 100 rfl rfl).1
      (by norm_num [default_config])
    simpa using h
  · have h := ((validate_width_spec default_config (some 0) (some 2000)).2 0 2000 rfl rfl).1
      (by norm_num [default_config])
    simpa using h
  · have h := ((validate_width_spec default_config (some 0) (some 99)).2 0 99 rfl rfl).2
      (by norm_num [default_config])
    simpa using h
  · exact (validate_width_spec default_config none (some 5)).1 (Or.inl rfl)

/-! ### Claim theorems: segment statistics -/

/-- C4: Over the widths list `[100.0, 150.0, 200.0]` a Segment reports
min = 100, max = 200, mean = 150, and population variance 5000/3, which
rounds to 1666.67 at two decimals; over the empty widths list all four
statistics are 0. -/
theorem segment_statistics_spec :
    (SegmentMeasurement.min_width ⟨1, 0, 100, [100, 150, 200]⟩ = 100 ∧
      SegmentMeasurement.max_width ⟨1, 0, 100, [100, 150, 200]⟩ = 200 ∧
      SegmentMeasurement.avg_width ⟨1, 0, 100, [100, 150, 200]⟩ = 150 ∧
      SegmentMeasurement.width_variance ⟨1, 0, 100, [100, 150, 200]⟩ = 5000/3 ∧
      round_2dp (SegmentMeasurement.width_variance ⟨1, 0, 100, [100, 150, 200]⟩) =
        166667/100) ∧
    (SegmentMeasurement.min_width ⟨1, 0, 0, []⟩ = 0 ∧
      SegmentMeasurement.max_width ⟨1, 0, 0, []⟩ = 0 ∧
      SegmentMeasurement.avg_width ⟨1, 0, 0, []⟩ = 0 ∧
      SegmentMeasurement.width_variance ⟨1, 0, 0, []⟩ = 0) := by
  have hvar : SegmentMeasurement.width_variance ⟨1, 0, 100, [100, 150, 200]⟩ = 5000/3 := by
    norm_num [SegmentMeasurement.width_variance, SegmentMeasurement.avg_width]
  refine ⟨⟨?_, ?_, ?_, hvar, ?_⟩, ?_, ?_, ?_, ?_⟩
  · norm_num [SegmentMeasurement.min_width]
  · norm_num [SegmentMeasurement.max_width]
  · norm_num [SegmentMeasurement.avg_width]
  · rw [hvar]; norm_num [round_2dp]
  · norm_num [SegmentMeasurement.min_width]
  · norm_num [SegmentMeasurement.max_width]
  · norm_num [SegmentMeasurement.avg_width]
  · norm_num [SegmentMeasurement.width_variance]

/-! ### Claim theorems: per-frame events of the Segment Assembler -/

/-- C5: At a sampled frame, a `width_warning` alert is emitted iff the
measurement is present and strictly below `minWidthThreshold * 1.1` (an
absent measurement never produces an alert), and a present measurement is
still appended to the recorded widths. -/
theorem width_warning_alert_spec {F : Type} (cfg : Config) (edges : F → Option ℕ × Option ℕ)
    (line_signal : F → Bool) (mean_diff : F → F → ℚ) (sample_rate : ℕ)
    (st : LoopState F) (f : F)
    (hs : (st.frame_count + 1) % sample_rate = 0) :
    (process_frame cfg edges line_signal mean_diff sample_rate st f).alerts =
      st.alerts ++
        (match measure_w cfg edges f with
         | some w =>
           if w < cfg.min_width_threshold * (11/10) then [mk_alert (some (st.frame_count + 1)) w]
           else []
         | none => []) ∧
    all_widths (process_frame cfg edges line_signal mean_diff sample_rate st f) =
      all_widths st ++ (measure_w cfg edges f).toList := by
  simp only [process_frame, hs, ne_eq, not_true_eq_false, if_false]
  cases hm : measure_w cfg edges f with
  | none =>
    simp only [hm, Option.toList_none, List.append_nil]
    by_cases hseam : detect_seam cfg line_signal mean_diff f st.prev_frame = true
    · simp only [hseam, if_true]
      by_cases hw : st.current.widths.isEmpty
      · simp_all [all_widths, List.isEmpty_iff]
      · simp_all [all_widths]
    · simp_all [all_widths]
  | some w =>
    simp only [hm, Option.toList_some]
    by_cases hseam : detect_seam cfg line_signal mean_diff f st.prev_frame = true
    · simp only [hseam, if_true]
      by_cases ha : w < cfg.min_width_threshold * (11/10) <;>
        simp [ha, all_widths, List.append_assoc]
    · by_cases ha : w < cfg.min_width_threshold * (11/10) <;>
        simp [hseam, ha, all_widths, List.append_assoc]

/-- Edge extractor for step-event witnesses: every frame measures a belt from
column 0 to column 105. -/
def edges_105 : ℕ → Option ℕ × Option ℕ := fun _ => (some 0, some 105)

/-- A line signal that never fires (no seams). -/
def line_never : ℕ → Bool := fun _ => false

/-- A line signal that always fires (seam on every frame with a
predecessor). -/
def line_always : ℕ → Bool := fun _ => true

/-- A zero mean frame difference. -/
def diff_zero : ℕ → ℕ → ℚ := fun _ _ => 0

/-- C5 witness: width 105 with the default `minWidthThreshold = 100` is below
`100 * 1.1 = 110`, so the first sampled frame yields exactly one
`width_warning` alert at frame 1 and the measurement is still recorded. -/
theorem width_warning_alert_spec_witness :
    (process_frame default_config edges_105 line_never diff_zero 1 (init_state ℕ) 7).alerts =
      [mk_alert (some 1) 105] ∧
    all_widths (process_frame default_config edges_105 line_never diff_zero 1 (init_state ℕ) 7) =
      [105] := by
  have h := width_warning_alert_spec default_config edges_105 line_never diff_zero 1
    (init_state ℕ) 7 (by norm_num [init_state])
  constructor
  · rw [h.1]
    norm_num [measure_w, edges_105, validate_width, default_config, init_state, all_widths]
  · rw [h.2]
    norm_num [measure_w, edges_105, validate_width, default_config, init_state, all_widths]

/-- C3: At a sampled frame where the seam signal fires, the open segment—
with the frame's own measurement (if present) already appended—is closed and
appended to the segment list iff its widths are non-empty, and a fresh open
segment starts with id = (segments appended so far) + 1 and
startFrame = endFrame = the current frame, with empty widths. -/
theorem seam_event_spec {F : Type} (cfg : Config) (edges : F → Option ℕ × Option ℕ)
    (line_signal : F → Bool) (mean_diff : F → F → ℚ) (sample_rate : ℕ)
    (st : LoopState F) (f : F)
    (hs : (st.frame_count + 1) % sample_rate = 0)
    (hseam : detect_seam cfg line_signal mean_diff f st.prev_frame = true) :
    (process_frame cfg edges line_signal mean_diff sample_rate st f).segments =
      (if (st.current.widths ++ (measure_w cfg edges f).toList).isEmpty then st.segments
       else st.segments ++
        [{ st.current with
            widths := st.current.widths ++ (measure_w cfg edges f).toList
            frame_end :=
              if (measure_w cfg edges f).isSome then st.frame_count + 1
              else st.current.frame_end }]) ∧
    (process_frame cfg edges line_signal mean_diff sample_rate st f).current =
      { segment_id :=
          (if (st.current.widths ++ (measure_w cfg edges f).toList).isEmpty then st.segments
           else st.segments ++
            [{ st.current with
                widths := st.current.widths ++ (measure_w cfg edges f).toList
                frame_end :=
                  if (measure_w cfg edges f).isSome then st.frame_count + 1
                  else st.current.frame_end }]).length + 1
        frame_start := st.frame_count + 1
        frame_end := st.frame_count + 1
        widths := [] } := by
  simp only [process_frame, hs, ne_eq, not_true_eq_false, if_false]
  cases hm : measure_w cfg edges f with
  | none =>
    simp only [hm, Option.toList_none, List.append_nil, Option.isSome_none, Bool.false_eq_true,
      if_false, hseam, if_true]
    exact ⟨by trivial, by trivial⟩
  | some w =>
    have hne : (st.current.widths ++ [w]).isEmpty = false := by
      simp
    simp only [hm, Option.toList_some, Option.isSome_some, if_true, hseam, hne,
      Bool.false_eq_true, if_false]
    exact ⟨by trivial, by trivial⟩

/-- Loop state before a seam-triggering frame: one empty open segment, a
previous sampled frame already seen. -/
def state_with_prev : LoopState ℕ :=
  { init_state ℕ with prev_frame := some 0 }

/-- C3 witness: with a seam firing on frame 1 and a valid measurement of 105,
the measurement lands in the closed segment `⟨1, 0, 1, [105]⟩` and a fresh
empty segment with id 2 opens at startFrame = endFrame = 1. -/
theorem seam_event_spec_witness :
    (process_frame default_config edges_105 line_always diff_zero 1 state_with_prev 1).segments =
      [⟨1, 0, 1, [105]⟩] ∧
    (process_frame default_config edges_105 line_always diff_zero 1 state_with_prev 1).current =
      ⟨2, 1, 1, []⟩ := by
  have h := seam_event_spec default_config edges_105 line_always diff_zero 1
    state_with_prev 1 (by norm_num [state_with_prev, init_state])
    (by norm_num [detect_seam, state_with_prev, init_state, line_always])
  obtain ⟨h1, h2⟩ := h
  constructor
  · rw [h1]
    norm_num [measure_w, edges_105, validate_width, default_config, state_with_prev, init_state]
  · rw [h2]
    norm_num [measure_w, edges_105, validate_width, default_config, state_with_prev, init_state]

/-- The alert produced by a tagged valid measurement, if any. -/
def alert_of (cfg : Config) (p : ℕ × ℚ) : Option Alert :=
  if p.2 < cfg.min_width_threshold * (11/10) then some (mk_alert (some p.1) p.2) else none

/-- Invariant of the frame loop when the seam signal never fires: the closed
segments, segment id and start frame never change; the open segment
accumulates exactly the valid measurements in order; its end frame tracks the
last valid sampled frame; alerts accumulate from the valid measurements. -/
lemma fold_no_seam {F : Type} (cfg : Config) (edges : F → Option ℕ × Option ℕ)
    (line_signal : F → Bool) (mean_diff : F → F → ℚ) (sample_rate : ℕ)
    (hseam : ∀ f p, detect_seam cfg line_signal mean_diff f p = false) :
    ∀ (frames : List F) (st : LoopState F),
      (frames.foldl (process_frame cfg edges line_signal mean_diff sample_rate) st).segments =
          st.segments ∧
      (frames.foldl (process_frame cfg edges line_signal mean_diff sample_rate) st).current.segment_id
          = st.current.segment_id ∧
      (frames.foldl (process_frame cfg edges line_signal mean_diff sample_rate) st).current.frame_start
          = st.current.frame_start ∧
      (frames.foldl (process_frame cfg edges line_signal mean_diff sample_rate) st).current.widths
          = st.current.widths ++
            (valid_measurements_from cfg edges sample_rate st.frame_count frames).map Prod.snd ∧
      (frames.foldl (process_frame cfg edges line_signal mean_diff sample_rate) st).current.frame_end
          = ((valid_measurements_from cfg edges sample_rate st.frame_count frames).map
              Prod.fst).getLastD st.current.frame_end ∧
      (frames.foldl (process_frame cfg edges line_signal mean_diff sample_rate) st).alerts
          = st.alerts ++
            (valid_measurements_from cfg edges sample_rate st.frame_count frames).filterMap
              (alert_of cfg) := by
  intro frames
  induction frames with
  | nil => intro st; simp [valid_measurements_from]
  | cons f fs ih =>
    intro st
    rw [List.foldl_cons]
    by_cases hs : (st.frame_count + 1) % sample_rate = 0
    · have hsm : detect_seam cfg line_signal mean_diff f st.prev_frame = false := hseam f _
      cases hm : measure_w cfg edges f with
      | none =>
        have hstep : process_frame cfg edges line_signal mean_diff sample_rate st f =
            { st with prev_frame := some f, frame_count := st.frame_count + 1 } := by
          simp [process_frame, hs, hm, hsm]
        have hvm : valid_measurements_from cfg edges sample_rate st.frame_count (f :: fs) =
            valid_measurements_from cfg edges sample_rate (st.frame_count + 1) fs := by
          simp [valid_measurements_from, hs, hm]
        rw [hstep, hvm]
        exact ih { st with prev_frame := some f, frame_count := st.frame_count + 1 }
      | some w =>
        by_cases ha : w < cfg.min_width_threshold * (11/10)
        all_goals
          have hstep : process_frame cfg edges line_signal mean_diff sample_rate st f =
              { segments := st.segments
                current :=
                  { st.current with
                      widths := st.current.widths ++ [w], frame_end := st.frame_count + 1 }
                alerts := st.alerts ++ ((alert_of cfg (st.frame_count + 1, w)).toList)
                prev_frame := some f
                frame_count := st.frame_count + 1 } := by
            simp [process_frame, hs, hm, ha, alert_of, hsm]
        all_goals
          have hvm : valid_measurements_from cfg edges sample_rate st.frame_count (f :: fs) =
              (st.frame_count + 1, w) ::
                valid_measurements_from cfg edges sample_rate (st.frame_count + 1) fs := by
            simp [valid_measurements_from, hs, hm]
        all_goals
          rw [hstep, hvm]
          obtain ⟨i1, i2, i3, i4, i5, i6⟩ := ih
            { segments := st.segments
              current :=
                { st.current with
                    widths := st.current.widths ++ [w], frame_end := st.frame_count + 1 }
              alerts := st.alerts ++ ((alert_of cfg (st.frame_count + 1, w)).toList)
              prev_frame := some f
              frame_count := st.frame_count + 1 }
          refine ⟨i1, i2, i3, ?_, ?_, ?_⟩
          · simpa [List.append_assoc] using i4
          · rw [List.map_cons, List.getLastD_cons]
            exact i5
          · rw [i6]
            simp only [List.filterMap_cons]
            cases hao : alert_of cfg (st.frame_count + 1, w) <;>
              simp [hao, List.append_assoc]
    · have hstep : process_frame cfg edges line_signal mean_diff sample_rate st f =
          { st with frame_count := st.frame_count + 1 } := by
        simp [process_frame, hs]
      have hvm : valid_measurements_from cfg edges sample_rate st.frame_count (f :: fs) =
          valid_measurements_from cfg edges sample_rate (st.frame_count + 1) fs := by
        simp [valid_measurements_from, hs]
      rw [hstep, hvm]
      exact ih { st with frame_count := st.frame_count + 1 }

/-- Edge extractor for the two-frame no-seam example: frame 0 measures a
valid width of 150, frame 1 has no detectable edges. -/
def edges_two_frames : ℕ → Option ℕ × Option ℕ :=
  fun n => if n = 0 then (some 0, some 150) else (none, none)

/-- C2 counterexample: a two-frame video (sample rate 1) whose seam signal
never fires and whose only valid measurement (N = 1) is at sampled frame 1
yields one segment with `frame_end = 1`, while the last sampled frame is 2 —
so the segment does not span "frame 0 to the last sampled frame" as claimed;
its end frame is the last frame with a *valid* measurement. -/
theorem no_seam_endframe_cex :
    valid_measurements_from default_config edges_two_frames 1 0 [0, 1] = [(1, 150)] ∧
    (analyze_video_frames default_config edges_two_frames line_never diff_zero 1 [0, 1]).1 =
      [⟨1, 0, 1, [150]⟩] ∧
    (1 : ℕ) ≠ 2 := by
  refine ⟨?_, ?_, by norm_num⟩
  · norm_num [valid_measurements_from, measure_w, edges_two_frames, validate_width, default_config]
  · norm_num [analyze_video_frames, process_frame, init_state, measure_w, edges_two_frames,
      validate_width, default_config, detect_seam, line_never, diff_zero, mk_alert]

/-- C2 (amended): if the seam signal is false at every sampled frame and at
least one measurement is valid, the analysis yields exactly one segment with
`frame_start = 0`, `frame_end` = the frame index of the last valid
measurement, and widths = the valid measurements in sampling order. -/
theorem no_seam_single_segment {F : Type} (cfg : Config) (edges : F → Option ℕ × Option ℕ)
    (line_signal : F → Bool) (mean_diff : F → F → ℚ) (sample_rate : ℕ) (frames : List F)
    (hseam : ∀ f p, detect_seam cfg line_signal mean_diff f p = false)
    (hne : valid_measurements_from cfg edges sample_rate 0 frames ≠ []) :
    (analyze_video_frames cfg edges line_signal mean_diff sample_rate frames).1 =
      [{ segment_id := 1
         frame_start := 0
         frame_end :=
           ((valid_measurements_from cfg edges sample_rate 0 frames).map Prod.fst).getLastD 0
         widths := (valid_measurements_from cfg edges sample_rate 0 frames).map Prod.snd }] := by
  obtain ⟨i1, i2, i3, i4, i5, i6⟩ :=
    fold_no_seam cfg edges line_signal mean_diff sample_rate hseam frames (init_state F)
  have hcur :
      (frames.foldl (process_frame cfg edges line_signal mean_diff sample_rate)
          (init_state F)).current =
        { segment_id := 1
          frame_start := 0
          frame_end :=
            ((valid_measurements_from cfg edges sample_rate 0 frames).map Prod.fst).getLastD 0
          widths := (valid_measurements_from cfg edges sample_rate 0 frames).map Prod.snd } := by
    refine SegmentMeasurement.ext ?_ ?_ ?_ ?_
    · simpa [init_state] using i2
    · simpa [init_state] using i3
    · simpa [init_state] using i5
    · simpa [init_state] using i4
  have hmapne : (valid_measurements_from cfg edges sample_rate 0 frames).map Prod.snd ≠ [] := by
    intro h
    exact hne (by simpa using h)
  simp only [analyze_video_frames]
  rw [hcur, i1]
  simp [init_state, List.isEmpty_iff, hmapne]

/-- C2 witness: the amended theorem applied to the two-frame example — one
segment from frame 0 to frame 1 (the last valid measurement) carrying the
single valid width 150. -/
theorem no_seam_single_segment_witness :
    (analyze_video_frames default_config edges_two_frames line_never diff_zero 1 [0, 1]).1 =
      [⟨1, 0, 1, [150]⟩] := by
  have hseam : ∀ (f : ℕ) (p : Option ℕ),
      detect_seam default_config line_never diff_zero f p = false := by
    intro f p
    cases p <;> norm_num [detect_seam, line_never, diff_zero, default_config]
  have hvm : valid_measurements_from default_config edges_two_frames 1 0 [0, 1] = [(1, 150)] := by
    norm_num [valid_measurements_from, measure_w, edges_two_frames, validate_width, default_config]
  have h := no_seam_single_segment default_config edges_two_frames line_never diff_zero 1 [0, 1]
    hseam (by rw [hvm]; simp)
  rw [hvm] at h
  simpa using h

/-! ### Claim theorems: image mode, failure semantics, calibration -/

/-- A width accepted by the validator is at least the minimum threshold. -/
lemma validate_width_ge_min (cfg : Config) (l r : Option ℕ) (w : ℚ)
    (h : validate_width cfg l r = some w) : cfg.min_width_threshold ≤ w := by
  match l, r with
  | none, _ => simp [validate_width] at h
  | some a, none => simp [validate_width] at h
  | some a, some b =>
    rw [validate_width] at h
    split at h
    · exact absurd h (by simp)
    · rename_i hcond
      push_neg at hcond
      obtain rfl : ((((b : ℤ) - (a : ℤ)).natAbs : ℕ) : ℚ) = w := by injection h
      exact hcond.1

/-- A present measurement is at least the minimum threshold. -/
lemma measure_w_ge_min {F : Type} (cfg : Config) (edges : F → Option ℕ × Option ℕ)
    (f : F) (w : ℚ) (h : measure_w cfg edges f = some w) : cfg.min_width_threshold ≤ w :=
  validate_width_ge_min cfg (edges f).1 (edges f).2 w h

/-- A configuration with `min_width_threshold = 0`, under which a measured
width of 0 is valid. -/
def zero_min_config : Config :=
  { min_width_threshold := 0
    max_width_threshold := 2000
    seam_detection_threshold := 3/10
    calibration_px_per_mm := 1 }

/-- A 4-row, single-column all-foreground mask: both detected edges are
column 0, so the measured width is 0. -/
def single_column_mask : Mask := ⟨4, 1, fun _ _ => true⟩

/-- C6 counterexample: with `min_width_threshold = 0` and a mask whose two
edges coincide, the single measurement *succeeds* with width 0, yet image
mode returns zero segments — the Python truthiness test `if width` drops a
present width of 0.0 — so "exactly one segment iff the measurement
succeeded" fails. -/
theorem analyze_image_truthiness_cex :
    measure_w zero_min_config detect_belt_edges single_column_mask = some 0 ∧
    ¬ (((analyze_image_frame zero_min_config detect_belt_edges "belt.png"
          single_column_mask).segments.length = 1) ↔
        (measure_w zero_min_config detect_belt_edges single_column_mask).isSome = true) := by
  have hm : measure_w zero_min_config detect_belt_edges single_column_mask = some 0 := by
    norm_num [measure_w, detect_belt_edges, has_contours, scan_edges, scan_go, exceeds,
      column_projection, largest_blob_bounding_box, single_column_mask, zero_min_config,
      validate_width, show List.range 1 = [0] from rfl, show List.range 4 = [0,1,2,3] from rfl]
  refine ⟨hm, ?_⟩
  simp [analyze_image_frame, hm]

/-- C6 (amended): for image mode with a strictly positive minimum width
threshold, the result has exactly one segment iff the single measurement
succeeded (the segment being `⟨1, 0, 0, [w]⟩`), carries at most one alert,
and an absent measurement yields zero segments and zero alerts. (For
`minWidthThreshold ≤ 0` a present width of 0.0 is dropped by Python
truthiness, see the counterexample.) -/
theorem analyze_image_spec {F : Type} (cfg : Config) (edges : F → Option ℕ × Option ℕ)
    (image_path : String) (f : F)
    (hmin : 0 < cfg.min_width_threshold) :
    ((analyze_image_frame cfg edges image_path f).segments.length = 1 ↔
        (measure_w cfg edges f).isSome = true) ∧
    (analyze_image_frame cfg edges image_path f).segments =
      (match measure_w cfg edges f with
       | some w => [{ segment_id := 1, frame_start := 0, frame_end := 0, widths := [w] }]
       | none => []) ∧
    (analyze_image_frame cfg edges image_path f).alerts.length ≤ 1 ∧
    (measure_w cfg edges f = none →
      (analyze_image_frame cfg edges image_path f).segments = [] ∧
      (analyze_image_frame cfg edges image_path f).alerts = []) := by
  cases hm : measure_w cfg edges f with
  | none => simp [analyze_image_frame, hm]
  | some w =>
    have hw0 : w ≠ 0 :=
      ne_of_gt (lt_of_lt_of_le hmin (measure_w_ge_min cfg edges f w hm))
    refine ⟨?_, ?_, ?_, ?_⟩
    · simp [analyze_image_frame, hm, hw0]
    · simp [analyze_image_frame, hm, hw0]
    · by_cases ha : w < cfg.min_width_threshold * (11/10) <;>
        simp [analyze_image_frame, hm, hw0, ha]
    · intro hc
      exact absurd hc (by simp)

/-- Edge extractor standing for a frame whose measured edge distance is 90
(columns 0 and 90). -/
def edges_90 : ℕ → Option ℕ × Option ℕ := fun _ => (some 0, some 90)

/-- C6 witness: with the default thresholds (min 100 > 0) a measured width of
90 is rejected as absent, so image mode yields zero segments and zero
alerts. -/
theorem analyze_image_spec_witness :
    (0 : ℚ) < 100 ∧
    (analyze_image_frame default_config edges_90 "belt90.png" 0).segments = [] ∧
    (analyze_image_frame default_config edges_90 "belt90.png" 0).alerts = [] := by
  have hmin : 0 < default_config.min_width_threshold := by norm_num [default_config]
  have hm : measure_w default_config edges_90 0 = none := by
    norm_num [measure_w, edges_90, validate_width, default_config]
  have h := (analyze_image_spec default_config edges_90 "belt90.png" 0 hmin).2.2.2 hm
  exact ⟨by norm_num, h.1, h.2⟩

/-- Decoded frames of a source whose every read succeeds are all frames. -/
lemma read_frames_map_some {F : Type} : ∀ (xs : List F), read_frames (xs.map some) = xs := by
  intro xs
  induction xs with
  | nil => rfl
  | cons x xs ih => simp [read_frames, ih]

/-- A mid-stream decode failure truncates the stream at the failure point. -/
lemma read_frames_midstream {F : Type} :
    ∀ (xs : List F) (ys : List (Option F)),
      read_frames (xs.map some ++ none :: ys) = xs := by
  intro xs ys
  induction xs with
  | nil => rfl
  | cons x xs ih => simp [read_frames, ih]

/-- C8: `analyze_video` returns a fatal error iff the source cannot be
opened, `analyze_image` iff the image cannot be decoded (no partial results),
and a mid-stream decode failure is end-of-stream: the result equals the
analysis of the successfully decoded prefix. -/
theorem fatal_error_spec {F : Type} (cfg : Config) (edges : F → Option ℕ × Option ℕ)
    (line_signal : F → Bool) (mean_diff : F → F → ℚ) (path : String) (sample_rate : ℕ) :
    (∀ (src : Option (ℕ × ℚ × List (Option F))),
        (analyze_video cfg edges line_signal mean_diff path src sample_rate).isOk =
          src.isSome) ∧
    (∀ (img : Option F),
        (analyze_image cfg edges path img).isOk = img.isSome) ∧
    (∀ (tf : ℕ) (fps : ℚ) (xs : List F) (ys : List (Option F)),
        analyze_video cfg edges line_signal mean_diff path
            (some (tf, fps, xs.map some ++ none :: ys)) sample_rate =
          analyze_video cfg edges line_signal mean_diff path
            (some (tf, fps, xs.map some)) sample_rate) := by
  refine ⟨?_, ?_, ?_⟩
  · rintro (_ | ⟨tf, fps, reads⟩) <;> rfl
  · rintro (_ | f) <;> rfl
  · intro tf fps xs ys
    simp only [analyze_video, read_frames_midstream, read_frames_map_some]

/-- C9: the calibration factor `calibrationPxPerMm` does not influence any
part of either analysis: two runs on the same source whose configurations
differ only in the calibration value produce identical Analysis Results
(segments, alerts and all). -/
theorem calibration_noninterference {F : Type} (cfg : Config) (c : ℚ)
    (edges : F → Option ℕ × Option ℕ) (line_signal : F → Bool) (mean_diff : F → F → ℚ)
    (path : String) (sample_rate : ℕ)
    (src : Option (ℕ × ℚ × List (Option F))) (img : Option F) :
    analyze_video { cfg with calibration_px_per_mm := c } edges line_signal mean_diff path
        src sample_rate =
      analyze_video cfg edges line_signal mean_diff path src sample_rate ∧
    analyze_image { cfg with calibration_px_per_mm := c } edges path img =
      analyze_image cfg edges path img :=
  ⟨rfl, rfl⟩

end BeltMonitor
